import Mathlib

/-!
Verification of the WebSocket command router and connection registry of
`nogasm-wifi` (`src/src/WebSocketHelper.cpp`), as a shallow embedding.

The envelope codec (ArduinoJson's `serializeJson` / `deserializeJson`) is an
external library whose sources are not part of this repository; it is modelled
from the spec as a JSON value type with a serializer and a fuel-indexed
recursive-descent parser.  Everything else is translated directly from
`WebSocketHelper.cpp`.
-/

/-- Modelled from the spec: the wire value type of the envelope codec.
Payload values are numbers, strings, booleans, sequences and mappings
(an ordered association list, as ArduinoJson documents preserve insertion
order). -/
inductive Json where
  | num (n : Int)
  | str (s : String)
  | bool (b : Bool)
  | arr (xs : List Json)
  | obj (kvs : List (String × Json))
deriving Repr

/-- The opening-brace character, written by code point. -/
def lbrace : Char := Char.ofNat 123

/-- The closing-brace character, written by code point. -/
def rbrace : Char := Char.ofNat 125

/-- The double-quote character, written by code point. -/
def dquote : Char := Char.ofNat 34

/-- The backslash character, written by code point. -/
def bslash : Char := Char.ofNat 92

/-- Escape one character of a JSON string body. -/
def escChar (c : Char) : List Char :=
  if c = dquote ∨ c = bslash then [bslash, c] else [c]

/-- Escape a JSON string body. -/
def escape : List Char → List Char
  | [] => []
  | c :: cs => escChar c ++ escape cs

/-- One decimal digit as a character. -/
def digitToChar (d : Nat) : Char :=
  if d = 0 then '0' else if d = 1 then '1' else if d = 2 then '2'
  else if d = 3 then '3' else if d = 4 then '4' else if d = 5 then '5'
  else if d = 6 then '6' else if d = 7 then '7' else if d = 8 then '8'
  else if d = 9 then '9' else '*'

/-- Little-endian decimal digits of a positive number, with explicit fuel so
that the kernel can evaluate it. -/
def natDigitsRevAux : Nat → Nat → List Nat
  | 0, _ => []
  | f + 1, n => if n = 0 then [] else n % 10 :: natDigitsRevAux f (n / 10)

/-- Big-endian decimal digits of a natural number (at least one digit). -/
def natDigitsBE (n : Nat) : List Nat :=
  if n = 0 then [0] else (natDigitsRevAux n n).reverse

/-- Decimal characters of a natural number. -/
def natChars (n : Nat) : List Char := (natDigitsBE n).map digitToChar

/-- Decimal characters of an integer. -/
def intChars (n : Int) : List Char :=
  if n < 0 then '-' :: natChars n.natAbs else natChars n.toNat

mutual

/-- Modelled from the spec: serialization of a JSON value (.`encode`'s core). -/
def serJ : Json → List Char
  | .num n => intChars n
  | .str s => dquote :: (escape s.data ++ [dquote])
  | .bool b => if b then ['t', 'r', 'u', 'e'] else ['f', 'a', 'l', 's', 'e']
  | .arr xs => '[' :: (serList xs ++ [']'])
  | .obj kvs => lbrace :: (serObj kvs ++ [rbrace])

/-- Serialization of array elements, comma separated. -/
def serList : List Json → List Char
  | [] => []
  | [x] => serJ x
  | x :: y :: xs => serJ x ++ ',' :: serList (y :: xs)

/-- Serialization of object members, comma separated. -/
def serObj : List (String × Json) → List Char
  | [] => []
  | [(k, v)] => dquote :: (escape k.data ++ [dquote]) ++ ':' :: serJ v
  | (k, v) :: m :: kvs =>
      dquote :: (escape k.data ++ [dquote]) ++ ':' :: serJ v ++ ',' :: serObj (m :: kvs)

end

mutual

/-- Fuel needed by the parser on a serialized value. -/
def jsize : Json → Nat
  | .num _ => 1
  | .str _ => 1
  | .bool _ => 1
  | .arr xs => 1 + jsizeList xs
  | .obj kvs => 1 + jsizeObj kvs

def jsizeList : List Json → Nat
  | [] => 1
  | x :: xs => 1 + jsize x + jsizeList xs

def jsizeObj : List (String × Json) → Nat
  | [] => 1
  | (_, v) :: kvs => 1 + jsize v + jsizeObj kvs

end

/-- Parse a run of decimal digits (maximal munch) with an accumulator. -/
def parseDigits : List Char → Nat → Nat × List Char
  | [], acc => (acc, [])
  | c :: cs, acc =>
      if c.isDigit then parseDigits cs (acc * 10 + (c.toNat - 48)) else (acc, c :: cs)

/-- Parse a JSON string body up to (and consuming) the closing quote. -/
def parseStr (s : List Char) : Option (List Char × List Char) :=
  match s with
  | [] => none
  | c :: cs =>
      if c = bslash then
        match cs with
        | [] => none
        | e :: cs2 => (parseStr cs2).map (fun p => (e :: p.1, p.2))
      else if c = dquote then
        some ([], cs)
      else
        (parseStr cs).map (fun p => (c :: p.1, p.2))

/-- True when the list starts with a decimal digit. -/
def digitHead : List Char → Bool
  | [] => false
  | c :: _ => c.isDigit

mutual

/-- Modelled from the spec: recursive-descent parser for one JSON value
(`decode`'s core), indexed by fuel. -/
def parseVal : Nat → List Char → Option (Json × List Char)
  | 0, _ => none
  | _ + 1, [] => none
  | fuel + 1, c :: cs =>
      if c = dquote then
        (parseStr cs).map (fun p => (Json.str (String.mk p.1), p.2))
      else if c = 't' then
        match cs with
        | 'r' :: 'u' :: 'e' :: r => some (Json.bool true, r)
        | _ => none
      else if c = 'f' then
        match cs with
        | 'a' :: 'l' :: 's' :: 'e' :: r => some (Json.bool false, r)
        | _ => none
      else if c = '[' then
        (parseElems fuel cs).map (fun p => (Json.arr p.1, p.2))
      else if c = lbrace then
        (parseMembers fuel cs).map (fun p => (Json.obj p.1, p.2))
      else if c = '-' then
        match cs with
        | d :: _ =>
            if d.isDigit then
              let p := parseDigits cs 0
              some (Json.num (-(p.1 : Int)), p.2)
            else none
        | [] => none
      else if c.isDigit then
        let p := parseDigits (c :: cs) 0
        some (Json.num (p.1 : Int), p.2)
      else none

/-- Parse array elements after the opening bracket, consuming the closer. -/
def parseElems : Nat → List Char → Option (List Json × List Char)
  | 0, _ => none
  | fuel + 1, s =>
      if s.head? = some ']' then some ([], s.tail)
      else
        match parseVal fuel s with
        | some (v, ',' :: r2) =>
            (parseElems fuel r2).map (fun p => (v :: p.1, p.2))
        | some (v, ']' :: r2) => some ([v], r2)
        | _ => none

/-- Parse object members after the opening brace, consuming the closer. -/
def parseMembers : Nat → List Char → Option (List (String × Json) × List Char)
  | 0, _ => none
  | fuel + 1, s =>
      if s.head? = some rbrace then some ([], s.tail)
      else
        match s with
        | c :: s1 =>
            if c = dquote then
              match parseStr s1 with
              | some (k, ':' :: s2) =>
                  match parseVal fuel s2 with
                  | some (v, ',' :: s3) =>
                      (parseMembers fuel s3).map (fun p => ((String.mk k, v) :: p.1, p.2))
                  | some (v, r) =>
                      if r.head? = some rbrace then
                        some ([(String.mk k, v)], r.tail)
                      else none
                  | none => none
              | _ => none
            else none
        | [] => none

end

/-- Modelled from the spec: `decode(raw_text)` parses raw text into the
envelope mapping; malformed input yields `none` (the `DeserializationError`
branch of `onMessage`). -/
def decode (s : String) : Option Json :=
  match parseVal (2 * s.length + 2) s.data with
  | some (v, []) => some v
  | _ => none

/-- Serialize a JSON value to wire text (`serializeJson`). -/
def serialize (j : Json) : String := String.mk (serJ j)

/-- Modelled from the spec: `encode(reply_key, payload)` wraps one payload
under one key and serializes, exactly as `send` builds its envelope. -/
def encode (cmd : String) (doc : Json) : String :=
  serialize (Json.obj [(cmd, doc)])

/-- A live client session, from `WebSocketConnection` (declared in the
repository's header, not under `src/`).  Modelled from the spec: a new
connection's `stream_telemetry` (`stream_readings` in the source) defaults
to `false`. -/
structure WebSocketConnection where
  ip : String
  num : Int
  stream_readings : Bool
deriving Repr, DecidableEq

/-- Storage medium type reported by `SD.cardType()`. -/
inductive CardType where
  | mmc
  | sd
  | sdhc
  | unknown
deriving Repr, DecidableEq

/-- One entry of a directory listing, as read from `File::openNextFile`. -/
structure FileEntry where
  name : String
  size : Int
  isDir : Bool
deriving Repr, DecidableEq

/-- The external collaborators consumed by the router: hardware identity,
configuration store, console interpreter, network and storage status, and
the SD filesystem.  Each is an abstract query; their internals are out of
scope for the router. -/
structure Env where
  deviceSerial : String
  fwVersion : String
  configSnapshot : Json
  wifiSsid : String
  wifiIp : String
  wifiRssi : Int
  sdCardType : CardType
  sdCardSizeMB : Int
  consoleRun : String → String
  serialBufferLen : Nat
  sdOpen : String → Option (List FileEntry)
  sdMkdir : String → Bool
  millis : Int

/-- Side effects a handler performs on external collaborators. -/
inductive Effect where
  | setConfigValue (key value : String)
  | saveConfigToSd (deadline : Int)
  | setMode (v : Json)
  | setMotorSpeed (v : Json)
  | consoleCmd (line : String)
  | mkdir (path : String)
deriving Repr

/-- The router's mutable state: whether `webSocket` is non-null, the
`connections` registry (an ordered map from client id to session), and
`last_connection`. -/
structure ServerState where
  webSocket : Bool
  connections : List (Int × WebSocketConnection)
  last_connection : Int
deriving Repr

/-- Registry lookup (`connections[num]` read access / `get(id)`). -/
def lookupConn (l : List (Int × WebSocketConnection)) (k : Int) :
    Option WebSocketConnection :=
  match l with
  | [] => none
  | p :: rest => if p.1 = k then some p.2 else lookupConn rest k

/-- Registry insert (`connections[num] = client`): replace an existing key
or append. -/
def insertConn (l : List (Int × WebSocketConnection)) (k : Int)
    (c : WebSocketConnection) : List (Int × WebSocketConnection) :=
  match l with
  | [] => [(k, c)]
  | p :: rest => if p.1 = k then (k, c) :: rest else p :: insertConn rest k c

/-- Registry erase (`connections.erase(num)`). -/
def eraseConn (l : List (Int × WebSocketConnection)) (k : Int) :
    List (Int × WebSocketConnection) :=
  l.filter (fun p => p.1 ≠ k)

/-- Field access on an envelope entry (`args["name"]`): `none` models a
null/absent member. -/
def jGet (j : Json) (k : String) : Option Json :=
  match j with
  | .obj kvs => (kvs.find? (fun p => p.1 = k)).map (fun p => p.2)
  | _ => none

/-- ArduinoJson `as<int>()` conversion. -/
def jAsInt : Option Json → Int
  | some (.num n) => n
  | _ => 0

/-- ArduinoJson `as<String>()` conversion. -/
def jAsString : Option Json → String
  | some (.str s) => s
  | some (.num n) => String.mk (intChars n)
  | some (.bool b) => if b then "true" else "false"
  | _ => ""

/-- ArduinoJson `as<bool>()` conversion (used by `streamReadings`). -/
def jAsBool : Json → Bool
  | .bool b => b
  | .num n => n ≠ 0
  | _ => false

/-- The entries of the envelope as iterated by `doc.as<JsonObject>()`:
empty when the document is not an object. -/
def asObj : Json → List (String × Json)
  | .obj kvs => kvs
  | _ => []

/-- `WebSocketHelper::send(cmd, doc, num)`: no-op while the server handle is
null; otherwise wrap the payload under `cmd`, serialize once, and either
unicast to `num` (when `num > 0`) or send the same text to every entry of
the `connections` registry.  The result is the list of `sendTXT` calls as
(target id, text) pairs. -/
def send (st : ServerState) (cmd : String) (doc : Json) (num : Int) :
    List (Int × String) :=
  if st.webSocket = false then []
  else
    let payload := encode cmd doc
    if num > 0 then [(num, payload)]
    else st.connections.map (fun p => (p.1, payload))

/-- `WebSocketHelper::send(cmd, text, num)`: the convenience overload that
wraps a bare string as a text payload. -/
def sendText (st : ServerState) (cmd : String) (text : String) (num : Int) :
    List (Int × String) :=
  send st cmd (Json.obj [("text", Json.str text)]) num

/-- The `info` payload built by `sendSystemInfo`. -/
def systemInfoDoc (env : Env) : Json :=
  Json.obj [("device", Json.str "Edge-o-Matic 3000"),
            ("serial", Json.str env.deviceSerial),
            ("hwVersion", Json.str ""),
            ("fwVersion", Json.str env.fwVersion)]

/-- `sendSystemInfo(num)`. -/
def sendSystemInfo (env : Env) (st : ServerState) (num : Int) :
    List (Int × String) :=
  send st "info" (systemInfoDoc env) num

/-- `sendSettings(num)`: the full configuration snapshot under `configList`. -/
def sendSettings (env : Env) (st : ServerState) (num : Int) :
    List (Int × String) :=
  send st "configList" env.configSnapshot num

/-- `sendWxStatus(num)`. -/
def sendWxStatus (env : Env) (st : ServerState) (num : Int) :
    List (Int × String) :=
  send st "wifiStatus"
    (Json.obj [("ssid", Json.str env.wifiSsid),
               ("ip", Json.str env.wifiIp),
               ("rssi", Json.num env.wifiRssi)]) num

/-- The card-type string chosen by the `switch` in `sendSdStatus`. -/
def cardTypeName : CardType → String
  | .mmc => "MMC"
  | .sd => "SD"
  | .sdhc => "SDHC"
  | .unknown => "UNKNOWN"

/-- `sendSdStatus(num)`. -/
def sendSdStatus (env : Env) (st : ServerState) (num : Int) :
    List (Int × String) :=
  send st "sdStatus"
    (Json.obj [("size", Json.num env.sdCardSizeMB),
               ("type", Json.str (cardTypeName env.sdCardType))]) num

/-- Path normalization shared by `cbDir` and `cbMkdir`: prefix a `/` when the
first character is not `/` (the first character of an empty Arduino String
reads as NUL, so an empty path also gets the prefix). -/
def normalizePath (p : String) : String :=
  if p.data.head? = some '/' then p else "/" ++ p

/-- `cbSerialCmd(num, args)`: run the console interpreter on the (truncated)
command line and reply `{nonce, text}` under `serialCmd`. -/
def cbSerialCmd (env : Env) (st : ServerState) (num : Int) (args : Json) :
    List (Int × String) × List Effect :=
  let nonce := jAsInt (jGet args "nonce")
  let line := (jAsString (jGet args "cmd")).take (env.serialBufferLen - 2)
  let text := env.consoleRun line
  (send st "serialCmd"
     (Json.obj [("nonce", Json.num nonce), ("text", Json.str text)]) num,
   [Effect.consoleCmd line])

/-- One listed file as built in `cbDir`'s loop. -/
def fileJson (e : FileEntry) : Json :=
  Json.obj [("name", Json.str e.name), ("size", Json.num e.size),
            ("dir", Json.bool e.isDir)]

/-- The `dir` reply payload built by `cbDir`: `nonce` and a `files` array are
created before the directory is opened, and `error = "Invalid directory."`
is added when the path cannot be opened. -/
def dirResp (env : Env) (nonce : Int) (path : String) : Json :=
  match env.sdOpen path with
  | none =>
      Json.obj [("nonce", Json.num nonce), ("files", Json.arr []),
                ("error", Json.str "Invalid directory.")]
  | some entries =>
      Json.obj [("nonce", Json.num nonce),
                ("files", Json.arr (entries.map fileJson))]

/-- `cbDir(num, args)`: normalize the path, build the reply, send it under
`dir`. -/
def cbDir (env : Env) (st : ServerState) (num : Int) (args : Json) :
    List (Int × String) :=
  let nonce := jAsInt (jGet args "nonce")
  let path := normalizePath (jAsString (jGet args "path"))
  send st "dir" (dirResp env nonce path) num

/-- `cbMkdir(num, args)`. -/
def cbMkdir (env : Env) (st : ServerState) (num : Int) (args : Json) :
    List (Int × String) × List Effect :=
  let nonce := jAsInt (jGet args "nonce")
  let path := normalizePath (jAsString (jGet args "path"))
  let resp :=
    if env.sdMkdir path then
      Json.obj [("nonce", Json.num nonce), ("path", Json.str path)]
    else
      Json.obj [("nonce", Json.num nonce), ("path", Json.str path),
                ("error", Json.str "Failed to create directory.")]
  (send st "mkdir" resp num, [Effect.mkdir path])

/-- `cbConfigSet(num, args)`: apply each option pair, then schedule the
debounced persistence write.  No reply is sent. -/
def cbConfigSet (env : Env) (st : ServerState) (num : Int) (args : Json) :
    List (Int × String) × List Effect :=
  ([],
   (asObj args).map (fun p => Effect.setConfigValue p.1 (jAsString (some p.2)))
     ++ [Effect.saveConfigToSd (env.millis + 300)])

/-- `cbSetMode(num, mode)`: forward to `RunGraphPage.setMode`. -/
def cbSetMode (num : Int) (mode : Json) : List Effect :=
  [Effect.setMode mode]

/-- `cbSetMotor(num, speed)`: forward to `Hardware::setMotorSpeed`. -/
def cbSetMotor (num : Int) (speed : Json) : List Effect :=
  [Effect.setMotorSpeed speed]

/-- `streamReadings` body in `onMessage`: set the sender's
`stream_readings` flag. -/
def setStream (st : ServerState) (num : Int) (b : Bool) : ServerState :=
  { st with connections :=
      st.connections.map (fun p =>
        if p.1 = num then (p.1, { p.2 with stream_readings := b }) else p) }

/-- The command names recognized by `onMessage`'s dispatch chain. -/
def knownCmds : List String :=
  ["configSet", "info", "configList", "serialCmd", "getWiFiStatus",
   "getSDStatus", "setMode", "setMotor", "streamReadings", "dir", "mkdir"]

/-- Dispatch of one envelope entry: the `strcmp` chain of `onMessage`.
Returns the state after the entry, the `sendTXT` calls it made, and the
collaborator effects it performed. -/
def dispatchEntry (env : Env) (st : ServerState) (num : Int) (cmd : String)
    (v : Json) : ServerState × List (Int × String) × List Effect :=
  if cmd = "configSet" then
    let r := cbConfigSet env st num v
    (st, r.1, r.2)
  else if cmd = "info" then (st, sendSystemInfo env st num, [])
  else if cmd = "configList" then (st, sendSettings env st num, [])
  else if cmd = "serialCmd" then
    let r := cbSerialCmd env st num v
    (st, r.1, r.2)
  else if cmd = "getWiFiStatus" then (st, sendWxStatus env st num, [])
  else if cmd = "getSDStatus" then (st, sendSdStatus env st num, [])
  else if cmd = "setMode" then (st, [], cbSetMode num v)
  else if cmd = "setMotor" then (st, [], cbSetMotor num v)
  else if cmd = "streamReadings" then (setStream st num (jAsBool v), [], [])
  else if cmd = "dir" then (st, cbDir env st num v, [])
  else if cmd = "mkdir" then
    let r := cbMkdir env st num v
    (st, r.1, r.2)
  else (st, sendText st "error" ("Unknown command: " ++ cmd) num, [])

/-- Dispatch of a whole envelope: each entry in document order, threading
the state and concatenating sends and effects. -/
def dispatchEntries (env : Env) (st : ServerState) (num : Int) :
    List (String × Json) → ServerState × List (Int × String) × List Effect
  | [] => (st, [], [])
  | (k, v) :: rest =>
      let r1 := dispatchEntry env st num k v
      let r2 := dispatchEntries env r1.1 num rest
      (r2.1, r1.2.1 ++ r2.2.1, r1.2.2 ++ r2.2.2)

/-- `onMessage(num, payload)`: decode, and on failure only log — no reply,
no dispatch, no state change; on success dispatch every entry of the
envelope object. -/
def onMessage (env : Env) (st : ServerState) (num : Int) (payload : String) :
    ServerState × List (Int × String) × List Effect :=
  match decode payload with
  | none => (st, [], [])
  | some doc => dispatchEntries env st num (asObj doc)

/-- A transport event as delivered to `onWebSocketEvent`. -/
inductive WsEvent where
  | disconnected
  | connected (ip : String)
  | text (payload : String)
  | other

/-- `onWebSocketEvent(num, type, payload, length)`: disconnect erases the
registry entry; connect inserts a fresh session, records it as
`last_connection` and immediately pushes the system info; text dispatches
through `onMessage`; everything else is ignored. -/
def onWebSocketEvent (env : Env) (st : ServerState) (num : Int) (ev : WsEvent) :
    ServerState × List (Int × String) × List Effect :=
  match ev with
  | .disconnected =>
      ({ st with connections := eraseConn st.connections num }, [], [])
  | .connected ip =>
      let client : WebSocketConnection :=
        { ip := ip, num := num, stream_readings := false }
      let st1 := { st with connections := insertConn st.connections num client,
                           last_connection := num }
      (st1, sendSystemInfo env st1 num, [])
  | .text payload => onMessage env st num payload
  | .other => (st, [], [])

theorem digitToChar_isDigit (d : Nat) (h : d < 10) :
    (digitToChar d).isDigit = true := by
  interval_cases d <;> decide

theorem digitToChar_toNat (d : Nat) (h : d < 10) :
    (digitToChar d).toNat - 48 = d := by
  interval_cases d <;> decide

theorem digitToChar_ne_delim (d : Nat) (h : d < 10) :
    digitToChar d ≠ ']' ∧ digitToChar d ≠ ',' ∧ digitToChar d ≠ rbrace := by
  interval_cases d <;> refine ⟨by decide, by decide, by decide⟩

theorem natDigitsRevAux_eq_digits (f : Nat) :
    ∀ n, n ≤ f → natDigitsRevAux f n = Nat.digits 10 n := by
  induction f with
  | zero =>
      intro n h
      have hn : n = 0 := by omega
      subst hn
      simp [natDigitsRevAux]
  | succ f ih =>
      intro n h
      by_cases hn : n = 0
      · subst hn
        simp [natDigitsRevAux]
      · have hlt : n / 10 ≤ f := by
          have := Nat.div_lt_self (Nat.pos_of_ne_zero hn)
            (by norm_num : 1 < 10)
          omega
        simp only [natDigitsRevAux, if_neg hn]
        rw [ih (n / 10) hlt,
          Nat.digits_def' (by norm_num : 1 < 10) (Nat.pos_of_ne_zero hn)]

theorem natDigitsBE_eq (n : Nat) (hn : n ≠ 0) :
    natDigitsBE n = (Nat.digits 10 n).reverse := by
  unfold natDigitsBE
  rw [if_neg hn, natDigitsRevAux_eq_digits n n le_rfl]

theorem natDigitsBE_lt (n : Nat) : ∀ d ∈ natDigitsBE n, d < 10 := by
  intro d hd
  by_cases hn : n = 0
  · unfold natDigitsBE at hd
    simp [hn] at hd
    omega
  · rw [natDigitsBE_eq n hn] at hd
    simp at hd
    exact Nat.digits_lt_base (by norm_num) hd

theorem natDigitsBE_ne_nil (n : Nat) : natDigitsBE n ≠ [] := by
  by_cases hn : n = 0
  · unfold natDigitsBE
    simp [hn]
  · rw [natDigitsBE_eq n hn]
    simp [Nat.digits_ne_nil_iff_ne_zero, hn]

theorem parseDigits_spec (ds : List Nat) (rest : List Char) (acc : Nat)
    (h : ∀ d ∈ ds, d < 10) (hrest : digitHead rest = false) :
    parseDigits (ds.map digitToChar ++ rest) acc =
      (ds.foldl (fun a d => a * 10 + d) acc, rest) := by
  induction ds generalizing acc with
  | nil =>
      simp only [List.map_nil, List.nil_append, List.foldl_nil]
      cases rest with
      | nil => rfl
      | cons c cs =>
          simp only [digitHead] at hrest
          simp [parseDigits, hrest]
  | cons d ds ih =>
      have hd : d < 10 := h d (by simp)
      simp only [List.map_cons, List.cons_append, parseDigits,
        digitToChar_isDigit d hd, if_true, digitToChar_toNat d hd]
      exact ih (acc * 10 + d) (fun x hx => h x (List.mem_cons_of_mem d hx))

theorem foldr_eq_ofDigits (ds : List Nat) :
    ds.foldr (fun d a => a * 10 + d) 0 = Nat.ofDigits 10 ds := by
  induction ds with
  | nil => simp [Nat.ofDigits]
  | cons d ds ih =>
      simp [Nat.ofDigits, ih]
      ring

theorem foldl_natDigitsBE (n : Nat) :
    (natDigitsBE n).foldl (fun a d => a * 10 + d) 0 = n := by
  by_cases hn : n = 0
  · unfold natDigitsBE
    simp [hn]
  · rw [natDigitsBE_eq n hn]
    rw [List.foldl_reverse]
    have : (Nat.digits 10 n).foldr (fun x y => y * 10 + x) 0 =
        (Nat.digits 10 n).foldr (fun d a => a * 10 + d) 0 := rfl
    rw [this, foldr_eq_ofDigits, Nat.ofDigits_digits]

theorem parseStr_escape (s : List Char) (rest : List Char) :
    parseStr (escape s ++ (dquote :: rest)) = some (s, rest) := by
  induction s with
  | nil =>
      simp only [escape, List.nil_append]
      unfold parseStr
      simp [(by decide : ¬(dquote = bslash))]
  | cons c cs ih =>
      by_cases hc : c = dquote ∨ c = bslash
      · have he : escape (c :: cs) = bslash :: c :: escape cs := by
          simp [escape, escChar, hc]
        rw [he]
        simp only [List.cons_append, List.append_assoc]
        unfold parseStr
        simp [ih]
      · push_neg at hc
        have he : escape (c :: cs) = c :: escape cs := by
          simp [escape, escChar, hc.1, hc.2]
        rw [he]
        simp only [List.cons_append]
        unfold parseStr
        simp [ih, hc.1, hc.2]

theorem serJ_num (n : Int) : serJ (.num n) = intChars n := by simp [serJ]

theorem serJ_str (s : String) :
    serJ (.str s) = dquote :: (escape s.data ++ [dquote]) := by simp [serJ]

theorem serJ_bool_t : serJ (.bool true) = ['t', 'r', 'u', 'e'] := by
  simp [serJ]

theorem serJ_bool_f : serJ (.bool false) = ['f', 'a', 'l', 's', 'e'] := by
  simp [serJ]

theorem serJ_arr (xs : List Json) :
    serJ (.arr xs) = '[' :: (serList xs ++ [']']) := by simp [serJ]

theorem serJ_obj (kvs : List (String × Json)) :
    serJ (.obj kvs) = lbrace :: (serObj kvs ++ [rbrace]) := by simp [serJ]

theorem serList_nil : serList [] = [] := by simp [serList]

theorem serList_one (x : Json) : serList [x] = serJ x := by simp [serList]

theorem serList_cons2 (x y : Json) (ys : List Json) :
    serList (x :: y :: ys) = serJ x ++ ',' :: serList (y :: ys) := by
  simp [serList]

theorem serObj_nil : serObj [] = [] := by simp [serObj]

theorem serObj_one (k : String) (v : Json) :
    serObj [(k, v)] = dquote :: (escape k.data ++ [dquote]) ++ ':' :: serJ v := by
  simp [serObj]

theorem serObj_cons2 (k : String) (v : Json) (m : String × Json)
    (kvs : List (String × Json)) :
    serObj ((k, v) :: m :: kvs) =
      dquote :: (escape k.data ++ [dquote]) ++ ':' :: serJ v ++
        ',' :: serObj (m :: kvs) := by
  simp [serObj]

theorem jsize_num (n : Int) : jsize (.num n) = 1 := by simp [jsize]

theorem jsize_str (s : String) : jsize (.str s) = 1 := by simp [jsize]

theorem jsize_bool (b : Bool) : jsize (.bool b) = 1 := by simp [jsize]

theorem jsize_arr (xs : List Json) : jsize (.arr xs) = 1 + jsizeList xs := by
  simp [jsize]

theorem jsize_obj (kvs : List (String × Json)) :
    jsize (.obj kvs) = 1 + jsizeObj kvs := by simp [jsize]

theorem jsizeList_nil : jsizeList [] = 1 := by simp [jsizeList]

theorem jsizeList_cons (x : Json) (xs : List Json) :
    jsizeList (x :: xs) = 1 + jsize x + jsizeList xs := by simp [jsizeList]

theorem jsizeObj_nil : jsizeObj [] = 1 := by simp [jsizeObj]

theorem jsizeObj_cons (k : String) (v : Json) (kvs : List (String × Json)) :
    jsizeObj ((k, v) :: kvs) = 1 + jsize v + jsizeObj kvs := by simp [jsizeObj]

theorem jsize_pos (v : Json) : 1 ≤ jsize v := by
  cases v <;> simp [jsize_num, jsize_str, jsize_bool, jsize_arr, jsize_obj]

theorem jsizeList_pos (xs : List Json) : 1 ≤ jsizeList xs := by
  cases xs with
  | nil => simp [jsizeList_nil]
  | cons x xs => rw [jsizeList_cons]; omega

theorem jsizeObj_pos (kvs : List (String × Json)) : 1 ≤ jsizeObj kvs := by
  cases kvs with
  | nil => simp [jsizeObj_nil]
  | cons p kvs => rcases p with ⟨k, v⟩; rw [jsizeObj_cons]; omega

theorem isDigit_ne (c : Char) (h : c.isDigit = true) :
    c ≠ dquote ∧ c ≠ 't' ∧ c ≠ 'f' ∧ c ≠ '[' ∧ c ≠ lbrace ∧ c ≠ '-' := by
  refine ⟨?_, ?_, ?_, ?_, ?_, ?_⟩ <;> rintro rfl <;> revert h <;> decide

theorem serJ_head_ne (v : Json) :
    ∃ c cs, serJ v = c :: cs ∧ c ≠ ']' ∧ c ≠ ',' ∧ c ≠ rbrace := by
  cases v with
  | num n =>
      rw [serJ_num]
      unfold intChars
      by_cases hn : n < 0
      · exact ⟨'-', natChars n.natAbs, by simp [hn], by decide, by decide,
          by decide⟩
      · obtain ⟨d, ds, hds⟩ : ∃ d ds, natDigitsBE n.toNat = d :: ds := by
          cases h : natDigitsBE n.toNat with
          | nil => exact absurd h (natDigitsBE_ne_nil _)
          | cons d ds => exact ⟨d, ds, rfl⟩
        have hd : d < 10 := natDigitsBE_lt _ d (by rw [hds]; simp)
        have hne := digitToChar_ne_delim d hd
        exact ⟨digitToChar d, ds.map digitToChar,
          by simp [hn, natChars, hds], hne.1, hne.2.1, hne.2.2⟩
  | str s =>
      exact ⟨dquote, _, serJ_str s, by decide, by decide, by decide⟩
  | bool b =>
      cases b
      · exact ⟨'f', _, serJ_bool_f, by decide, by decide, by decide⟩
      · exact ⟨'t', _, serJ_bool_t, by decide, by decide, by decide⟩
  | arr xs =>
      exact ⟨'[', _, serJ_arr xs, by decide, by decide, by decide⟩
  | obj kvs =>
      exact ⟨lbrace, _, serJ_obj kvs, by decide, by decide, by decide⟩

theorem parseVal_dquote (f : Nat) (cs : List Char) :
    parseVal (f + 1) (dquote :: cs) =
      (parseStr cs).map (fun p => (Json.str (String.mk p.1), p.2)) := by
  simp only [parseVal]
  simp

theorem parseVal_true (f : Nat) (r : List Char) :
    parseVal (f + 1) ('t' :: 'r' :: 'u' :: 'e' :: r) = some (.bool true, r) := by
  simp only [parseVal]
  simp [(by decide : ¬('t' = dquote))]

theorem parseVal_false (f : Nat) (r : List Char) :
    parseVal (f + 1) ('f' :: 'a' :: 'l' :: 's' :: 'e' :: r) =
      some (.bool false, r) := by
  simp only [parseVal]
  simp [(by decide : ¬('f' = dquote)), (by decide : ¬('f' = 't'))]

theorem parseVal_bracket (f : Nat) (cs : List Char) :
    parseVal (f + 1) ('[' :: cs) =
      (parseElems f cs).map (fun p => (Json.arr p.1, p.2)) := by
  simp only [parseVal]
  simp [(by decide : ¬('[' = dquote)), (by decide : ¬('[' = 't')),
    (by decide : ¬('[' = 'f'))]

theorem parseVal_brace (f : Nat) (cs : List Char) :
    parseVal (f + 1) (lbrace :: cs) =
      (parseMembers f cs).map (fun p => (Json.obj p.1, p.2)) := by
  simp only [parseVal]
  simp [(by decide : ¬(lbrace = dquote)), (by decide : ¬(lbrace = 't')),
    (by decide : ¬(lbrace = 'f')), (by decide : ¬(lbrace = '['))]

theorem parseVal_minus (f : Nat) (d : Char) (cs : List Char)
    (hd : d.isDigit = true) :
    parseVal (f + 1) ('-' :: d :: cs) =
      some (Json.num (-((parseDigits (d :: cs) 0).1 : Int)),
            (parseDigits (d :: cs) 0).2) := by
  simp only [parseVal]
  simp [(by decide : ¬('-' = dquote)), (by decide : ¬('-' = 't')),
    (by decide : ¬('-' = 'f')), (by decide : ¬('-' = '[')),
    (by decide : ¬('-' = lbrace)), hd]

theorem parseVal_digit (f : Nat) (c : Char) (cs : List Char)
    (h : c.isDigit = true) :
    parseVal (f + 1) (c :: cs) =
      some (Json.num ((parseDigits (c :: cs) 0).1 : Int),
            (parseDigits (c :: cs) 0).2) := by
  obtain ⟨h1, h2, h3, h4, h5, h6⟩ := isDigit_ne c h
  simp only [parseVal]
  simp [h1, h2, h3, h4, h5, h6, h]

theorem parseElems_closer (f : Nat) (s : List Char)
    (h : s.head? = some ']') :
    parseElems (f + 1) s = some ([], s.tail) := by
  simp only [parseElems]
  simp [h]

theorem parseElems_comma (f : Nat) (s : List Char) (v : Json) (r2 : List Char)
    (h : ¬ s.head? = some ']') (hp : parseVal f s = some (v, ',' :: r2)) :
    parseElems (f + 1) s = (parseElems f r2).map (fun p => (v :: p.1, p.2)) := by
  simp only [parseElems]
  simp [h, hp]

theorem parseElems_close (f : Nat) (s : List Char) (v : Json) (r2 : List Char)
    (h : ¬ s.head? = some ']') (hp : parseVal f s = some (v, ']' :: r2)) :
    parseElems (f + 1) s = some ([v], r2) := by
  simp only [parseElems]
  simp [h, hp]

theorem parseMembers_closer (f : Nat) (s : List Char)
    (h : s.head? = some rbrace) :
    parseMembers (f + 1) s = some ([], s.tail) := by
  simp only [parseMembers]
  simp [h]

theorem parseMembers_comma (f : Nat) (s1 : List Char) (k : List Char)
    (v : Json) (s2 s3 : List Char)
    (hs : parseStr s1 = some (k, ':' :: s2))
    (hv : parseVal f s2 = some (v, ',' :: s3)) :
    parseMembers (f + 1) (dquote :: s1) =
      (parseMembers f s3).map (fun p => ((String.mk k, v) :: p.1, p.2)) := by
  simp only [parseMembers]
  simp [(by decide : ¬(dquote = rbrace)), hs, hv]

theorem parseMembers_close (f : Nat) (s1 : List Char) (k : List Char)
    (v : Json) (s2 r : List Char)
    (hs : parseStr s1 = some (k, ':' :: s2))
    (hv : parseVal f s2 = some (v, rbrace :: r)) :
    parseMembers (f + 1) (dquote :: s1) = some ([(String.mk k, v)], r) := by
  simp only [parseMembers]
  simp [(by decide : ¬(dquote = rbrace)), hs, hv,
    (by decide : ¬(rbrace = ','))]

theorem string_mk_data (s : String) : String.mk s.data = s := rfl

theorem parse_ser_all (fuel : Nat) :
    (∀ (v : Json) (rest : List Char), jsize v ≤ fuel → digitHead rest = false →
      parseVal fuel (serJ v ++ rest) = some (v, rest)) ∧
    (∀ (xs : List Json) (rest : List Char), jsizeList xs ≤ fuel →
      parseElems fuel (serList xs ++ ']' :: rest) = some (xs, rest)) ∧
    (∀ (kvs : List (String × Json)) (rest : List Char), jsizeObj kvs ≤ fuel →
      parseMembers fuel (serObj kvs ++ rbrace :: rest) = some (kvs, rest)) := by
  induction fuel using Nat.strong_induction_on with
  | _ fuel ih =>
  match fuel with
  | 0 =>
      refine ⟨?_, ?_, ?_⟩
      · intro v rest hsz _
        exact absurd hsz (by have := jsize_pos v; omega)
      · intro xs rest hsz
        exact absurd hsz (by have := jsizeList_pos xs; omega)
      · intro kvs rest hsz
        exact absurd hsz (by have := jsizeObj_pos kvs; omega)
  | f + 1 =>
      have ihV := (ih f (Nat.lt_succ_self f)).1
      have ihE := (ih f (Nat.lt_succ_self f)).2.1
      have ihM := (ih f (Nat.lt_succ_self f)).2.2
      refine ⟨?_, ?_, ?_⟩
      · -- one value
        intro v rest hsz hrest
        cases v with
        | num n =>
            rw [serJ_num]
            unfold intChars
            obtain ⟨d, ds, hds⟩ :
                ∃ d ds, natDigitsBE (if n < 0 then n.natAbs else n.toNat) =
                  d :: ds := by
              cases h : natDigitsBE (if n < 0 then n.natAbs else n.toNat) with
              | nil => exact absurd h (natDigitsBE_ne_nil _)
              | cons d ds => exact ⟨d, ds, rfl⟩
            have hd10 : d < 10 := natDigitsBE_lt _ d (by rw [hds]; simp)
            have hpd : parseDigits
                ((natDigitsBE (if n < 0 then n.natAbs else n.toNat)).map
                  digitToChar ++ rest) 0 =
                (if n < 0 then n.natAbs else n.toNat, rest) := by
              rw [parseDigits_spec _ rest 0 (natDigitsBE_lt _) hrest,
                foldl_natDigitsBE]
            by_cases hn : n < 0
            · simp only [if_pos hn, List.cons_append]
              have hcons : natChars n.natAbs ++ rest =
                  digitToChar d :: (ds.map digitToChar ++ rest) := by
                simp only [natChars]
                rw [if_pos hn] at hds
                rw [hds]
                simp
              rw [hcons, parseVal_minus f _ _ (digitToChar_isDigit d hd10),
                ← hcons]
              simp only [natChars] at hpd ⊢
              rw [if_pos hn] at hpd
              rw [hpd]
              simp only [Option.some.injEq, Prod.mk.injEq, Json.num.injEq]
              constructor
              · omega
              · trivial
            · simp only [if_neg hn]
              have hcons : natChars n.toNat ++ rest =
                  digitToChar d :: (ds.map digitToChar ++ rest) := by
                simp only [natChars]
                rw [if_neg hn] at hds
                rw [hds]
                simp
              rw [hcons, parseVal_digit f _ _ (digitToChar_isDigit d hd10),
                ← hcons]
              simp only [natChars] at hpd ⊢
              rw [if_neg hn] at hpd
              rw [hpd]
              simp only [Option.some.injEq, Prod.mk.injEq, Json.num.injEq]
              constructor
              · omega
              · trivial
        | str s =>
            rw [serJ_str]
            simp only [List.cons_append, List.append_assoc,
              List.singleton_append]
            rw [parseVal_dquote, parseStr_escape]
            simp [string_mk_data]
        | bool b =>
            cases b
            · rw [serJ_bool_f]
              simp only [List.cons_append, List.nil_append]
              exact parseVal_false f rest
            · rw [serJ_bool_t]
              simp only [List.cons_append, List.nil_append]
              exact parseVal_true f rest
        | arr xs =>
            rw [serJ_arr]
            simp only [List.cons_append, List.append_assoc,
              List.singleton_append, List.nil_append]
            rw [parseVal_bracket]
            rw [jsize_arr] at hsz
            rw [ihE xs rest (by omega)]
            rfl
        | obj kvs =>
            rw [serJ_obj]
            simp only [List.cons_append, List.append_assoc,
              List.singleton_append, List.nil_append]
            rw [parseVal_brace]
            rw [jsize_obj] at hsz
            rw [ihM kvs rest (by omega)]
            rfl
      · -- array elements
        intro xs rest hsz
        cases xs with
        | nil =>
            rw [serList_nil]
            simp only [List.nil_append]
            rw [parseElems_closer f _ (by simp)]
            rfl
        | cons x xs =>
            obtain ⟨c, cs, hser, hc1, hc2, hc3⟩ := serJ_head_ne x
            cases xs with
            | nil =>
                rw [serList_one]
                have hhead : ¬(serJ x ++ ']' :: rest).head? = some ']' := by
                  rw [hser]
                  simp [hc1]
                have hx : jsize x ≤ f := by
                  rw [jsizeList_cons, jsizeList_nil] at hsz
                  omega
                have hpv : parseVal f (serJ x ++ ']' :: rest) =
                    some (x, ']' :: rest) :=
                  ihV x (']' :: rest) hx rfl
                rw [parseElems_close f _ x rest hhead hpv]
            | cons y ys =>
                rw [serList_cons2]
                simp only [List.cons_append, List.append_assoc]
                have hhead : ¬(serJ x ++
                    (',' :: (serList (y :: ys) ++ ']' :: rest))).head? =
                      some ']' := by
                  rw [hser]
                  simp [hc1]
                have hx : jsize x ≤ f := by
                  rw [jsizeList_cons] at hsz
                  have := jsizeList_pos (y :: ys)
                  omega
                have hys : jsizeList (y :: ys) ≤ f := by
                  rw [jsizeList_cons] at hsz
                  have := jsize_pos x
                  omega
                have hpv : parseVal f
                    (serJ x ++ (',' :: (serList (y :: ys) ++ ']' :: rest))) =
                    some (x, ',' :: (serList (y :: ys) ++ ']' :: rest)) :=
                  ihV x _ hx rfl
                rw [parseElems_comma f _ x _ hhead hpv,
                  ihE (y :: ys) rest hys]
                rfl
      · -- object members
        intro kvs rest hsz
        cases kvs with
        | nil =>
            rw [serObj_nil]
            simp only [List.nil_append]
            rw [parseMembers_closer f _ (by simp)]
            rfl
        | cons p kvs =>
            rcases p with ⟨k, v⟩
            cases kvs with
            | nil =>
                rw [serObj_one]
                simp only [List.cons_append, List.append_assoc,
                  List.singleton_append, List.nil_append]
                have hv : jsize v ≤ f := by
                  rw [jsizeObj_cons, jsizeObj_nil] at hsz
                  omega
                have hs : parseStr
                    (escape k.data ++ (dquote :: (':' :: (serJ v ++
                      rbrace :: rest)))) =
                    some (k.data, ':' :: (serJ v ++ rbrace :: rest)) :=
                  parseStr_escape k.data _
                have hpv : parseVal f (serJ v ++ rbrace :: rest) =
                    some (v, rbrace :: rest) :=
                  ihV v (rbrace :: rest) hv rfl
                rw [parseMembers_close f _ k.data v _ rest hs hpv,
                  string_mk_data]
            | cons m ms =>
                rw [serObj_cons2]
                simp only [List.cons_append, List.append_assoc,
                  List.singleton_append, List.nil_append]
                have hv : jsize v ≤ f := by
                  rw [jsizeObj_cons] at hsz
                  have := jsizeObj_pos (m :: ms)
                  omega
                have hms : jsizeObj (m :: ms) ≤ f := by
                  rw [jsizeObj_cons] at hsz
                  have := jsize_pos v
                  omega
                have hs : parseStr
                    (escape k.data ++ (dquote :: (':' :: (serJ v ++
                      (',' :: (serObj (m :: ms) ++ rbrace :: rest)))))) =
                    some (k.data,
                      ':' :: (serJ v ++
                        (',' :: (serObj (m :: ms) ++ rbrace :: rest)))) :=
                  parseStr_escape k.data _
                have hpv : parseVal f
                    (serJ v ++ (',' :: (serObj (m :: ms) ++
                      rbrace :: rest))) =
                    some (v, ',' :: (serObj (m :: ms) ++ rbrace :: rest)) :=
                  ihV v _ hv rfl
                rw [parseMembers_comma f _ k.data v _ _ hs hpv,
                  ihM (m :: ms) rest hms, string_mk_data]
                rfl

theorem natChars_ne_nil (n : Nat) : natChars n ≠ [] := by
  unfold natChars
  intro h
  exact natDigitsBE_ne_nil n (List.map_eq_nil_iff.mp h)

theorem intChars_length_pos (n : Int) : 1 ≤ (intChars n).length := by
  unfold intChars
  by_cases hn : n < 0
  · simp [hn]
  · simp only [hn, if_false]
    cases h : natChars n.toNat with
    | nil => exact absurd h (natChars_ne_nil _)
    | cons c cs => simp

mutual

theorem jsize_le_len (v : Json) : jsize v ≤ 2 * (serJ v).length := by
  cases v with
  | num n =>
      rw [jsize_num, serJ_num]
      have := intChars_length_pos n
      omega
  | str s =>
      rw [jsize_str, serJ_str]
      simp only [List.length_cons, List.length_append]
      omega
  | bool b =>
      cases b
      · rw [jsize_bool, serJ_bool_f]
        simp
      · rw [jsize_bool, serJ_bool_t]
        simp
  | arr xs =>
      rw [jsize_arr, serJ_arr]
      have h := jsizeList_le_len xs
      simp only [List.length_cons, List.length_append, List.length_singleton]
      omega
  | obj kvs =>
      rw [jsize_obj, serJ_obj]
      have h := jsizeObj_le_len kvs
      simp only [List.length_cons, List.length_append, List.length_singleton]
      omega

theorem jsizeList_le_len (xs : List Json) :
    jsizeList xs ≤ 2 * (serList xs).length + 2 := by
  cases xs with
  | nil =>
      rw [jsizeList_nil, serList_nil]
      simp
  | cons x xs =>
      cases xs with
      | nil =>
          rw [jsizeList_cons, jsizeList_nil, serList_one]
          have := jsize_le_len x
          omega
      | cons y ys =>
          rw [jsizeList_cons, serList_cons2]
          have h1 := jsize_le_len x
          have h2 := jsizeList_le_len (y :: ys)
          simp only [List.length_append, List.length_cons]
          omega

theorem jsizeObj_le_len (kvs : List (String × Json)) :
    jsizeObj kvs ≤ 2 * (serObj kvs).length + 2 := by
  cases kvs with
  | nil =>
      rw [jsizeObj_nil, serObj_nil]
      simp
  | cons p kvs =>
      rcases p with ⟨k, v⟩
      cases kvs with
      | nil =>
          rw [jsizeObj_cons, jsizeObj_nil, serObj_one]
          have := jsize_le_len v
          simp only [List.length_append, List.length_cons,
            List.length_singleton]
          omega
      | cons m ms =>
          rw [jsizeObj_cons, serObj_cons2]
          have h1 := jsize_le_len v
          have h2 := jsizeObj_le_len (m :: ms)
          simp only [List.length_append, List.length_cons,
            List.length_singleton]
          omega

end

theorem string_mk_length (cs : List Char) : (String.mk cs).length = cs.length :=
  rfl

theorem decode_serialize (j : Json) : decode (serialize j) = some j := by
  unfold decode serialize
  have hsz : jsize j ≤ 2 * (String.mk (serJ j)).length + 2 := by
    rw [string_mk_length]
    have := jsize_le_len j
    omega
  have h := (parse_ser_all (2 * (String.mk (serJ j)).length + 2)).1 j [] hsz rfl
  rw [List.append_nil] at h
  have hd : (String.mk (serJ j)).data = serJ j := rfl
  rw [hd, h]

theorem decode_encode (cmd : String) (doc : Json) :
    decode (encode cmd doc) = some (Json.obj [(cmd, doc)]) := by
  unfold encode
  exact decode_serialize (Json.obj [(cmd, doc)])

theorem serialize_inj (a b : Json) (h : serialize a = serialize b) : a = b := by
  have ha := decode_serialize a
  have hb := decode_serialize b
  rw [h] at ha
  rw [ha] at hb
  exact Option.some.inj hb

instance : DecidableEq Json := fun a b =>
  if h : serialize a = serialize b then
    Decidable.isTrue (serialize_inj a b h)
  else
    Decidable.isFalse (fun he => h (by rw [he]))

deriving instance DecidableEq for Effect

deriving instance DecidableEq for ServerState

theorem dispatchEntries_append (env : Env) (num : Int)
    (es1 es2 : List (String × Json)) :
    ∀ st, dispatchEntries env st num (es1 ++ es2) =
      ((dispatchEntries env (dispatchEntries env st num es1).1 num es2).1,
       (dispatchEntries env st num es1).2.1 ++
         (dispatchEntries env (dispatchEntries env st num es1).1 num es2).2.1,
       (dispatchEntries env st num es1).2.2 ++
         (dispatchEntries env (dispatchEntries env st num es1).1 num es2).2.2) := by
  induction es1 with
  | nil =>
      intro st
      simp [dispatchEntries]
  | cons e es ih =>
      intro st
      rcases e with ⟨k, v⟩
      simp only [List.cons_append, dispatchEntries, List.append_eq]
      rw [ih]
      simp [List.append_assoc]

theorem dispatchEntry_unknown (env : Env) (st : ServerState) (num : Int)
    (cmd : String) (v : Json) (h : ¬ cmd ∈ knownCmds) :
    dispatchEntry env st num cmd v =
      (st, sendText st "error" ("Unknown command: " ++ cmd) num, []) := by
  simp only [knownCmds, List.mem_cons, List.not_mem_nil, or_false] at h
  push_neg at h
  obtain ⟨h1, h2, h3, h4, h5, h6, h7, h8, h9, h10, h11⟩ := h
  simp [dispatchEntry, h1, h2, h3, h4, h5, h6, h7, h8, h9, h10, h11]

theorem dispatchEntry_webSocket (env : Env) (st : ServerState) (num : Int)
    (cmd : String) (v : Json) :
    (dispatchEntry env st num cmd v).1.webSocket = st.webSocket := by
  unfold dispatchEntry
  by_cases h1 : cmd = "configSet"
  · rw [if_pos h1]
    all_goals rfl
  rw [if_neg h1]
  by_cases h2 : cmd = "info"
  · rw [if_pos h2]
    all_goals rfl
  rw [if_neg h2]
  by_cases h3 : cmd = "configList"
  · rw [if_pos h3]
    all_goals rfl
  rw [if_neg h3]
  by_cases h4 : cmd = "serialCmd"
  · rw [if_pos h4]
    all_goals rfl
  rw [if_neg h4]
  by_cases h5 : cmd = "getWiFiStatus"
  · rw [if_pos h5]
    all_goals rfl
  rw [if_neg h5]
  by_cases h6 : cmd = "getSDStatus"
  · rw [if_pos h6]
    all_goals rfl
  rw [if_neg h6]
  by_cases h7 : cmd = "setMode"
  · rw [if_pos h7]
    all_goals rfl
  rw [if_neg h7]
  by_cases h8 : cmd = "setMotor"
  · rw [if_pos h8]
    all_goals rfl
  rw [if_neg h8]
  by_cases h9 : cmd = "streamReadings"
  · rw [if_pos h9]
    all_goals rfl
  rw [if_neg h9]
  by_cases h10 : cmd = "dir"
  · rw [if_pos h10]
    all_goals rfl
  rw [if_neg h10]
  by_cases h11 : cmd = "mkdir"
  · rw [if_pos h11]
    all_goals rfl
  rw [if_neg h11]
  all_goals rfl

theorem dispatchEntries_webSocket (env : Env) (num : Int)
    (es : List (String × Json)) :
    ∀ st, (dispatchEntries env st num es).1.webSocket = st.webSocket := by
  induction es with
  | nil => intro st; rfl
  | cons e es ih =>
      intro st
      rcases e with ⟨k, v⟩
      simp only [dispatchEntries]
      rw [ih, dispatchEntry_webSocket]

theorem lookupConn_insertConn (l : List (Int × WebSocketConnection)) (k : Int)
    (c : WebSocketConnection) :
    lookupConn (insertConn l k c) k = some c := by
  induction l with
  | nil => simp [insertConn, lookupConn]
  | cons p rest ih =>
      by_cases hp : p.1 = k
      · simp [insertConn, hp, lookupConn]
      · simp [insertConn, hp, lookupConn, ih]

theorem mem_keys_insertConn (l : List (Int × WebSocketConnection)) (k a : Int)
    (c : WebSocketConnection) :
    a ∈ (insertConn l k c).map Prod.fst ↔ a = k ∨ a ∈ l.map Prod.fst := by
  induction l with
  | nil => simp [insertConn]
  | cons p rest ih =>
      by_cases hp : p.1 = k
      · simp [insertConn, hp]
      · simp [insertConn, hp, ih]
        tauto

theorem keys_nodup_insertConn (l : List (Int × WebSocketConnection)) (k : Int)
    (c : WebSocketConnection) (h : (l.map Prod.fst).Nodup) :
    ((insertConn l k c).map Prod.fst).Nodup := by
  induction l with
  | nil => simp [insertConn]
  | cons p rest ih =>
      simp only [List.map_cons, List.nodup_cons] at h
      by_cases hp : p.1 = k
      · simp only [insertConn, if_pos hp, List.map_cons, List.nodup_cons]
        exact ⟨hp ▸ h.1, h.2⟩
      · simp only [insertConn, if_neg hp, List.map_cons, List.nodup_cons]
        refine ⟨?_, ih h.2⟩
        rw [mem_keys_insertConn]
        push_neg
        exact ⟨hp, h.1⟩

theorem send_unicast (st : ServerState) (cmd : String) (doc : Json) (num : Int)
    (hws : st.webSocket = true) (hnum : 0 < num) :
    send st cmd doc num = [(num, encode cmd doc)] := by
  unfold send
  rw [hws]
  simp [hnum]

theorem send_broadcast (st : ServerState) (cmd : String) (doc : Json)
    (num : Int) (hws : st.webSocket = true) (hnum : num ≤ 0) :
    send st cmd doc num = st.connections.map (fun p => (p.1, encode cmd doc)) := by
  unfold send
  rw [hws]
  simp [show ¬(0 < num) by omega]

theorem lookupConn_setStream (l : List (Int × WebSocketConnection)) (num : Int)
    (b : Bool) (c : WebSocketConnection) (h : lookupConn l num = some c) :
    lookupConn (l.map (fun p =>
      if p.1 = num then (p.1, { p.2 with stream_readings := b }) else p)) num =
      some { c with stream_readings := b } := by
  induction l with
  | nil => simp [lookupConn] at h
  | cons p rest ih =>
      by_cases hp : p.1 = num
      · simp only [lookupConn, if_pos hp] at h
        cases h
        simp [lookupConn, hp]
      · simp only [lookupConn, if_neg hp] at h
        simp [lookupConn, hp, ih h]

theorem filter_broadcast_absent (l : List (Int × WebSocketConnection))
    (s : String) (k : Int) (hk : ¬ k ∈ l.map Prod.fst) :
    (l.map (fun p => (p.1, s))).filter (fun e => decide (e.1 = k)) = [] := by
  induction l with
  | nil => simp
  | cons p rest ih =>
      simp only [List.map_cons, List.mem_cons] at hk
      push_neg at hk
      simp only [List.map_cons, List.filter_cons]
      rw [if_neg (by simpa using (Ne.symm hk.1))]
      exact ih hk.2

theorem filter_broadcast_nodup (l : List (Int × WebSocketConnection))
    (s : String) (k : Int) (c : WebSocketConnection)
    (hnd : (l.map Prod.fst).Nodup) (hl : lookupConn l k = some c) :
    (l.map (fun p => (p.1, s))).filter (fun e => decide (e.1 = k)) = [(k, s)] := by
  induction l with
  | nil => simp [lookupConn] at hl
  | cons p rest ih =>
      simp only [List.map_cons, List.nodup_cons] at hnd
      by_cases hp : p.1 = k
      · simp only [lookupConn, if_pos hp] at hl
        simp only [List.map_cons, List.filter_cons]
        rw [if_pos (by simpa using hp)]
        rw [filter_broadcast_absent rest s k (hp ▸ hnd.1)]
        rw [hp]
      · simp only [lookupConn, if_neg hp] at hl
        simp only [List.map_cons, List.filter_cons]
        rw [if_neg (by simpa using hp)]
        exact ih hnd.2 hl

theorem normalizePath_of_not_slash (p : String) (h : ¬ p.data.head? = some '/') :
    normalizePath p = "/" ++ p := by
  unfold normalizePath
  rw [if_neg h]

theorem normalizePath_slash (p : String) :
    normalizePath ("/" ++ p) = "/" ++ p := by
  unfold normalizePath
  rw [if_pos]
  rw [String.data_append]
  rfl

theorem cbDir_eval (env : Env) (st : ServerState) (num : Int) (n : Int)
    (p : String) :
    cbDir env st num (Json.obj [("nonce", Json.num n), ("path", Json.str p)]) =
      send st "dir" (dirResp env n (normalizePath p)) num := by
  unfold cbDir
  simp [jGet, jAsInt, jAsString, List.find?,
    (by decide : ¬("nonce" = "path"))]

/-- A concrete collaborator environment used by witnesses and
counterexamples; its filesystem has no directories. -/
def envA : Env := {
  deviceSerial := "EOM3K-0001", fwVersion := "0.1.9", configSnapshot := Json.obj [],
  wifiSsid := "shack", wifiIp := "192.168.0.42", wifiRssi := -52,
  sdCardType := .sdhc, sdCardSizeMB := 15193,
  consoleRun := fun _ => "OK", serialBufferLen := 120,
  sdOpen := fun _ => none, sdMkdir := fun _ => true, millis := 4200 }

/-- A concrete registered connection with id 1. -/
def connA : WebSocketConnection :=
  { ip := "192.168.0.10", num := 1, stream_readings := false }

/-- A concrete registered connection with id 2. -/
def connB : WebSocketConnection :=
  { ip := "192.168.0.11", num := 2, stream_readings := false }

/-- A concrete registered connection with id 0 (the transport numbers
clients from 0). -/
def connZ : WebSocketConnection :=
  { ip := "192.168.0.12", num := 0, stream_readings := false }

/-- A running server with connections 1 and 2. -/
def stA : ServerState :=
  { webSocket := true, connections := [(1, connA), (2, connB)],
    last_connection := 2 }

/-- A running server whose connected clients are 0 and 2. -/
def stZ : ServerState :=
  { webSocket := true, connections := [(0, connZ), (2, connB)],
    last_connection := 0 }

/-- A server whose WebSocket handle has not been started. -/
def stOff : ServerState :=
  { webSocket := false, connections := [(1, connA)], last_connection := 1 }

/-- Claim C1: with the server started, `send` with a positive target id
delivers the encoded envelope only to that connection, and `send` with a
zero or negative target id delivers the exact same encoded envelope to
every connection in the registry and to no other connection. -/
theorem send_unicast_or_broadcast (st : ServerState) (cmd : String)
    (doc : Json) (num : Int) (hws : st.webSocket = true) :
    (0 < num → send st cmd doc num = [(num, encode cmd doc)]) ∧
    (num ≤ 0 →
      (send st cmd doc num).map Prod.fst = st.connections.map Prod.fst ∧
      ∀ e ∈ send st cmd doc num, e.2 = encode cmd doc) := by
  constructor
  · intro h
    exact send_unicast st cmd doc num hws h
  · intro h
    rw [send_broadcast st cmd doc num hws h]
    constructor
    · rw [List.map_map]
      rfl
    · intro e he
      rw [List.mem_map] at he
      obtain ⟨p, _, rfl⟩ := he
      rfl

/-- Witness for C1 at a concrete running server. -/
theorem send_unicast_or_broadcast_witness :
    send stA "readings" (Json.bool true) 1 =
      [(1, encode "readings" (Json.bool true))] :=
  (send_unicast_or_broadcast stA "readings" (Json.bool true) 1 rfl).1
    (by decide)

/-- Claim C10: calling `send` before the WebSocket server has been started
(server handle null) delivers nothing to any connection. -/
theorem send_noop_when_null (st : ServerState) (cmd : String) (doc : Json)
    (num : Int) (h : st.webSocket = false) :
    send st cmd doc num = [] := by
  unfold send
  rw [h]
  simp

/-- Witness for C10 at a concrete stopped server. -/
theorem send_noop_when_null_witness : send stOff "info" (Json.num 1) 1 = [] :=
  send_noop_when_null stOff "info" (Json.num 1) 1 rfl

/-- Claim C5: decoding the text produced by `encode(key, payload)` yields
exactly the single-entry mapping from the key to the payload, for every key
and every payload value. -/
theorem decode_encode_roundtrip (key : String) (payload : Json) :
    decode (encode key payload) = some (Json.obj [(key, payload)]) :=
  decode_encode key payload

/-- Claim C6: an inbound text frame that fails to decode produces no reply,
dispatches nothing, and leaves the state (registry and flags) unchanged. -/
theorem decode_failure_no_effect (env : Env) (st : ServerState) (num : Int)
    (p : String) (h : decode p = none) :
    onWebSocketEvent env st num (.text p) = (st, [], []) := by
  show onMessage env st num p = (st, [], [])
  unfold onMessage
  rw [h]

/-- Witness for C6 on a concrete malformed frame. -/
theorem decode_failure_no_effect_witness :
    onWebSocketEvent envA stA 1 (.text "not json") = (stA, [], []) :=
  decode_failure_no_effect envA stA 1 "not json" (by decide)

/-- Claim C9: `setMode` and `setMotor` entries forward their payload to the
actuator collaborator, send no reply to any connection, and leave the
state unchanged. -/
theorem setMode_setMotor_fire_and_forget (env : Env) (st : ServerState)
    (num : Int) (v : Json) :
    dispatchEntry env st num "setMode" v = (st, [], [Effect.setMode v]) ∧
    dispatchEntry env st num "setMotor" v =
      (st, [], [Effect.setMotorSpeed v]) :=
  ⟨rfl, rfl⟩

/-- Claim C4 (code bug): a dispatched `configSet` entry applies the option
pairs and schedules the debounced write but sends no reply at all — in
particular no `configList` response, despite the source comment announcing
one. -/
theorem configSet_sends_no_reply (env : Env) (st : ServerState) (num : Int)
    (v : Json) :
    dispatchEntry env st num "configSet" v =
      (st, [],
       (asObj v).map (fun p => Effect.setConfigValue p.1 (jAsString (some p.2)))
         ++ [Effect.saveConfigToSd (env.millis + 300)]) :=
  rfl

/-- Counterexample to C2 as stated: when the sender is the transport's
client 0, `send(..., 0)` takes the broadcast branch, so the unknown-command
error also reaches connection 2 — the reply is not delivered to the sender
only. -/
theorem unknown_cmd_error_broadcast_cex :
    (dispatchEntries envA stZ 0 [("frobnicate", Json.bool true)]).2.1.map
      Prod.fst = [0, 2] := by
  decide

/-- Claim C2 (amended): provided the sender's connection id is positive and
the server is started, an entry whose name is not a recognized command
produces exactly one `error` reply, to the sender only, with text
`"Unknown command: " ++ name`, it leaves the state unchanged, and every
other entry of the envelope is dispatched exactly as it would be with the
unknown entry absent. -/
theorem unknown_cmd_error_to_sender (env : Env) (st : ServerState) (num : Int)
    (cmd : String) (v : Json) (es1 es2 : List (String × Json))
    (hcmd : ¬ cmd ∈ knownCmds) (hnum : 0 < num) (hws : st.webSocket = true) :
    dispatchEntries env st num (es1 ++ (cmd, v) :: es2) =
      ((dispatchEntries env (dispatchEntries env st num es1).1 num es2).1,
       (dispatchEntries env st num es1).2.1 ++
         (num, encode "error"
           (Json.obj [("text", Json.str ("Unknown command: " ++ cmd))])) ::
         (dispatchEntries env (dispatchEntries env st num es1).1 num es2).2.1,
       (dispatchEntries env st num es1).2.2 ++
         (dispatchEntries env (dispatchEntries env st num es1).1 num es2).2.2) := by
  rw [dispatchEntries_append]
  have hws1 : (dispatchEntries env st num es1).1.webSocket = true := by
    rw [dispatchEntries_webSocket]
    exact hws
  have hmsg : sendText (dispatchEntries env st num es1).1 "error"
      ("Unknown command: " ++ cmd) num =
      [(num, encode "error"
        (Json.obj [("text", Json.str ("Unknown command: " ++ cmd))]))] := by
    unfold sendText
    exact send_unicast _ _ _ _ hws1 hnum
  have hstep : dispatchEntries env (dispatchEntries env st num es1).1 num
      ((cmd, v) :: es2) =
      ((dispatchEntries env (dispatchEntries env st num es1).1 num es2).1,
       (num, encode "error"
         (Json.obj [("text", Json.str ("Unknown command: " ++ cmd))])) ::
         (dispatchEntries env (dispatchEntries env st num es1).1 num es2).2.1,
       (dispatchEntries env (dispatchEntries env st num es1).1 num es2).2.2) := by
    simp only [dispatchEntries]
    rw [dispatchEntry_unknown env _ num cmd v hcmd]
    simp [hmsg]
  rw [hstep]

/-- Witness for the amended C2: a `frobnicate` entry followed by a valid
`setMode` entry, from sender 1. -/
theorem unknown_cmd_error_to_sender_witness :
    dispatchEntries envA stA 1 ([] ++ ("frobnicate", Json.bool true) ::
        [("setMode", Json.num 2)]) =
      ((dispatchEntries envA (dispatchEntries envA stA 1 []).1 1
          [("setMode", Json.num 2)]).1,
       (dispatchEntries envA stA 1 []).2.1 ++
         (1, encode "error"
           (Json.obj [("text", Json.str ("Unknown command: " ++ "frobnicate"))])) ::
         (dispatchEntries envA (dispatchEntries envA stA 1 []).1 1
           [("setMode", Json.num 2)]).2.1,
       (dispatchEntries envA stA 1 []).2.2 ++
         (dispatchEntries envA (dispatchEntries envA stA 1 []).1 1
           [("setMode", Json.num 2)]).2.2) :=
  unknown_cmd_error_to_sender envA stA 1 "frobnicate" (Json.bool true) []
    [("setMode", Json.num 2)] (by decide) (by decide) rfl

/-- Counterexample to C3 as stated: on a non-existent path the `dir` reply
payload does contain a `files` entry — it is created (as an empty array)
before the directory is opened, alongside the `error` field. -/
theorem dir_invalid_contains_files_cex :
    cbDir envA stA 1
        (Json.obj [("nonce", Json.num 7), ("path", Json.str "foo")]) =
      [(1, encode "dir" (Json.obj [("nonce", Json.num 7),
        ("files", Json.arr []), ("error", Json.str "Invalid directory.")]))] ∧
    jGet (Json.obj [("nonce", Json.num 7), ("files", Json.arr []),
        ("error", Json.str "Invalid directory.")]) "files" =
      some (Json.arr []) := by
  constructor
  · decide
  · decide

/-- Claim C3 (amended): a `dir` request whose path does not begin with `/`
is handled identically to the same path prefixed with `/`; on a
non-existent (normalized) path the reply payload carries the request nonce,
`error = "Invalid directory."`, and a `files` entry that is the empty
array. -/
theorem dir_normalize_and_invalid (env : Env) (st : ServerState) (num : Int)
    (n : Int) (p : String) (hp : ¬ p.data.head? = some '/') :
    cbDir env st num
        (Json.obj [("nonce", Json.num n), ("path", Json.str p)]) =
      cbDir env st num
        (Json.obj [("nonce", Json.num n), ("path", Json.str ("/" ++ p))]) ∧
    (env.sdOpen ("/" ++ p) = none →
      cbDir env st num
          (Json.obj [("nonce", Json.num n), ("path", Json.str p)]) =
        send st "dir" (Json.obj [("nonce", Json.num n), ("files", Json.arr []),
          ("error", Json.str "Invalid directory.")]) num) := by
  have h1 := cbDir_eval env st num n p
  have h2 := cbDir_eval env st num n ("/" ++ p)
  constructor
  · rw [h1, h2, normalizePath_of_not_slash p hp, normalizePath_slash]
  · intro hio
    rw [h1, normalizePath_of_not_slash p hp]
    unfold dirResp
    rw [hio]

/-- Witness for the amended C3 at path `"foo"` on a filesystem with no
directories. -/
theorem dir_normalize_and_invalid_witness :
    cbDir envA stA 1
        (Json.obj [("nonce", Json.num 7), ("path", Json.str "foo")]) =
      cbDir envA stA 1
        (Json.obj [("nonce", Json.num 7), ("path", Json.str ("/" ++ "foo"))]) ∧
    (envA.sdOpen ("/" ++ "foo") = none →
      cbDir envA stA 1
          (Json.obj [("nonce", Json.num 7), ("path", Json.str "foo")]) =
        send stA "dir" (Json.obj [("nonce", Json.num 7), ("files", Json.arr []),
          ("error", Json.str "Invalid directory.")]) 1) :=
  dir_normalize_and_invalid envA stA 1 7 "foo" (by decide)

/-- Claim C7: a `streamReadings` entry with payload `true` makes the
sender's registry record report `stream_readings = true`, and any
connection created by a connect event — in particular a reconnect under a
new id — starts with `stream_readings = false`. -/
theorem streamReadings_sets_flag_connect_resets (env : Env) (st : ServerState)
    (num : Int) (c : WebSocketConnection)
    (h : lookupConn st.connections num = some c)
    (st2 : ServerState) (num2 : Int) (ip : String) :
    lookupConn ((dispatchEntry env st num "streamReadings"
        (Json.bool true)).1.connections) num =
      some { c with stream_readings := true } ∧
    lookupConn ((onWebSocketEvent env st2 num2 (.connected ip)).1.connections)
        num2 =
      some { ip := ip, num := num2, stream_readings := false } := by
  constructor
  · rw [show (dispatchEntry env st num "streamReadings"
        (Json.bool true)).1 = setStream st num true from rfl]
    exact lookupConn_setStream st.connections num true c h
  · rw [show (onWebSocketEvent env st2 num2 (.connected ip)).1.connections =
        insertConn st2.connections num2
          { ip := ip, num := num2, stream_readings := false } from rfl]
    exact lookupConn_insertConn st2.connections num2 _

/-- Witness for C7: sender 1 enables streaming; a later connect under the
fresh id 3 starts with the flag cleared. -/
theorem streamReadings_sets_flag_connect_resets_witness :
    lookupConn ((dispatchEntry envA stA 1 "streamReadings"
        (Json.bool true)).1.connections) 1 =
      some { connA with stream_readings := true } ∧
    lookupConn ((onWebSocketEvent envA stA 3
        (.connected "192.168.0.99")).1.connections) 3 =
      some { ip := "192.168.0.99", num := 3, stream_readings := false } :=
  streamReadings_sets_flag_connect_resets envA stA 1 connA (by decide)
    stA 3 "192.168.0.99"

/-- Claim C8: a connect event registers the new connection (with the
telemetry flag clear) and pushes it exactly one unsolicited `info` reply
carrying the device identity/version snapshot, with no collaborator side
effects. -/
theorem connect_registers_and_pushes_info (env : Env) (st : ServerState)
    (num : Int) (ip : String) (hws : st.webSocket = true)
    (hnd : (st.connections.map Prod.fst).Nodup) :
    lookupConn ((onWebSocketEvent env st num (.connected ip)).1.connections)
        num = some { ip := ip, num := num, stream_readings := false } ∧
    ((onWebSocketEvent env st num (.connected ip)).2.1.filter
        (fun e => decide (e.1 = num))) =
      [(num, encode "info" (systemInfoDoc env))] ∧
    (onWebSocketEvent env st num (.connected ip)).2.2 = [] := by
  refine ⟨?_, ?_, rfl⟩
  · rw [show (onWebSocketEvent env st num (.connected ip)).1.connections =
        insertConn st.connections num
          { ip := ip, num := num, stream_readings := false } from rfl]
    exact lookupConn_insertConn st.connections num _
  · rw [show (onWebSocketEvent env st num (.connected ip)).2.1 =
        sendSystemInfo env
          { webSocket := st.webSocket,
            connections := insertConn st.connections num
              { ip := ip, num := num, stream_readings := false },
            last_connection := num } num from rfl]
    unfold sendSystemInfo
    by_cases hnum : 0 < num
    · rw [send_unicast
        { webSocket := st.webSocket,
          connections := insertConn st.connections num
            { ip := ip, num := num, stream_readings := false },
          last_connection := num } "info" (systemInfoDoc env) num hws hnum]
      simp
    · rw [send_broadcast
        { webSocket := st.webSocket,
          connections := insertConn st.connections num
            { ip := ip, num := num, stream_readings := false },
          last_connection := num } "info" (systemInfoDoc env) num hws
        (by omega)]
      exact filter_broadcast_nodup _ _ num
        { ip := ip, num := num, stream_readings := false }
        (keys_nodup_insertConn st.connections num _ hnd)
        (lookupConn_insertConn st.connections num _)

/-- Witness for C8: a fresh client with id 3 connects to the running
server. -/
theorem connect_registers_and_pushes_info_witness :
    lookupConn ((onWebSocketEvent envA stA 3
        (.connected "192.168.0.77")).1.connections) 3 =
      some { ip := "192.168.0.77", num := 3, stream_readings := false } ∧
    ((onWebSocketEvent envA stA 3 (.connected "192.168.0.77")).2.1.filter
        (fun e => decide (e.1 = 3))) =
      [(3, encode "info" (systemInfoDoc envA))] ∧
    (onWebSocketEvent envA stA 3 (.connected "192.168.0.77")).2.2 = [] :=
  connect_registers_and_pushes_info envA stA 3 "192.168.0.77" rfl (by decide)
